import Mathlib

/-!
# Verification of ComfyUI_FL-SongGen

A shallow embedding of the repository's three source files —
`fl_nodes/model_loader.py`, `fl_utils/paths.py`, `fl_utils/compat.py` —
together with theorems about their behaviour.

The filesystem is modelled as a predicate on paths (a path is its list of
components from the root).  Stateful Python functions become explicit
state-passing Lean functions.  External collaborators (the bundled
`model_manager` module, `torch`, `transformers`, ComfyUI's `ProgressBar`)
are modelled as abstract parameters, mirroring only the surface the code
under verification uses.
-/

set_option maxHeartbeats 1000000

namespace SongGen

/-- A filesystem path, as the list of its components from the root. -/
abbrev FPath := List String

/-- The filesystem: which paths exist.  `mkdir` and existence checks are
the only filesystem operations the code performs. -/
abbrev FS := FPath → Bool

/-- Test `pathPre q p`: holds when `q` is an ancestor-or-self of `p`
(component-wise list prefix test). -/
def pathPre : FPath → FPath → Bool
  | [], _ => true
  | _ :: _, [] => false
  | a :: as, b :: bs => a == b && pathPre as bs

/-- Python `Path.mkdir(parents=True, exist_ok=True)`: afterwards the directory and
all of its ancestors exist; nothing else changes. -/
def mkdirParents (fs : FS) (p : FPath) : FS :=
  fun q => fs q || pathPre q p

/-- Function `get_songgen_models_dir` (`fl_utils/paths.py`): returns
`<comfyui_root>/models/songgen` after `mkdir(parents=True, exist_ok=True)`.
The ComfyUI root is an abstract parameter (the code derives it from
`__file__`). -/
def get_songgen_models_dir (root : FPath) (fs : FS) : FPath × FS :=
  let models_dir := root ++ ["models", "songgen"]
  (models_dir, mkdirParents fs models_dir)

/-- Function `get_model_variant_dir` (`fl_utils/paths.py`): the models dir joined with
the variant name, created with `mkdir(parents=True, exist_ok=True)`. -/
def get_model_variant_dir (root : FPath) (variant : String) (fs : FS) : FPath × FS :=
  let r := get_songgen_models_dir root fs
  let path := r.1 ++ [variant]
  (path, mkdirParents r.2 path)

/-- Function `get_checkpoints_dir` (`fl_utils/paths.py`): the models dir joined with
`"ckpt"`; no `mkdir` of its own. -/
def get_checkpoints_dir (root : FPath) (fs : FS) : FPath × FS :=
  let r := get_songgen_models_dir root fs
  (r.1 ++ ["ckpt"], r.2)

/-- The result dict shared by the three `check_*` helpers: keys
`'exists'`, `'missing'`, `'path'`. -/
structure CheckResult where
  exists_ : Bool
  missing : List String
  path : FPath
  deriving Repr, DecidableEq

/-- Function `check_model_files` (`fl_utils/paths.py`): for a variant, report which of
`config.yaml` and `model.pt` are absent from the variant directory. -/
def check_model_files (root : FPath) (variant : String) (fs : FS) : CheckResult × FS :=
  let r := get_model_variant_dir root variant fs
  let required_files := ["config.yaml", "model.pt"]
  let missing := required_files.filter (fun f => !(r.2 (r.1 ++ [f])))
  ({ exists_ := missing.isEmpty, missing := missing, path := r.1 }, r.2)

/-- Function `check_checkpoint_files` (`fl_utils/paths.py`): report which of the core
checkpoint items are absent from `models/songgen/ckpt/`; the missing list
holds each item's name (its last path component). -/
def check_checkpoint_files (root : FPath) (fs : FS) : CheckResult × FS :=
  let r := get_checkpoints_dir root fs
  let required_items := ["model_1rvq", "model_septoken", "vae"]
  let missing := required_items.filter (fun item => !(r.2 (r.1 ++ [item])))
  ({ exists_ := missing.isEmpty, missing := missing, path := r.1 }, r.2)

/-- The required bundled directories of `check_bundled_files`, relative to
the package root. -/
def bundled_required_dirs : List FPath :=
  [["codeclm"], ["codeclm", "models"], ["codeclm", "tokenizer"],
   ["third_party"], ["third_party", "stable_audio_tools"], ["third_party", "demucs"]]

/-- Python `str(d.relative_to(package_root))`: the relative path joined with `/`. -/
def relString (d : FPath) : String :=
  String.intercalate "/" d

/-- Function `check_bundled_files` (`fl_utils/paths.py`): report which required bundled
directories are absent, as paths relative to the package root. -/
def check_bundled_files (pkg : FPath) (fs : FS) : CheckResult :=
  let missing := (bundled_required_dirs.filter (fun d => !(fs (pkg ++ d)))).map relString
  { exists_ := missing.isEmpty, missing := missing, path := pkg }

/-- The four bundled paths `setup_bundled_imports` considers, in order. -/
def paths_to_add (package_root : FPath) : List FPath :=
  [package_root,
   package_root ++ ["codeclm"],
   package_root ++ ["codeclm", "tokenizer", "Flow1dVAE"],
   package_root ++ ["third_party"]]

/-- One iteration of the `setup_bundled_imports` loop:
`if path not in sys.path and Path(path).exists(): sys.path.insert(0, path)`. -/
def sys_path_step (fs : FS) (sysPath : List FPath) (p : FPath) : List FPath :=
  if !(sysPath.contains p) && fs p then p :: sysPath else sysPath

/-- Function `setup_bundled_imports` (`fl_utils/paths.py`), as a function of the
starting `sys.path`. -/
def setup_bundled_imports (package_root : FPath) (fs : FS) (sysPath : List FPath) :
    List FPath :=
  (paths_to_add package_root).foldl (sys_path_step fs) sysPath

theorem pathPre_refl (p : FPath) : pathPre p p = true := by
  induction p with
  | nil => rfl
  | cons a as ih => simp [pathPre, ih]

theorem pathPre_length_le (p q : FPath) (h : pathPre p q = true) : p.length ≤ q.length := by
  induction p generalizing q with
  | nil => simp
  | cons a as ih =>
    cases q with
    | nil => simp [pathPre] at h
    | cons b bs =>
      simp [pathPre] at h
      simpa using ih bs h.2

/-- A path strictly longer than `p` is untouched by `mkdirParents fs p`. -/
theorem mkdirParents_longer (fs : FS) (p q : FPath) (h : p.length < q.length) :
    mkdirParents fs p q = fs q := by
  unfold mkdirParents
  cases hq : pathPre q p with
  | false => simp
  | true => exact absurd (pathPre_length_le q p hq) (by omega)

/-!
## `fl_utils/compat.py`

`find_pruneable_heads_and_indices` builds a `torch.ones(n_heads, head_dim)`
mask, zeroes the rows of the heads still to prune, flattens it row-major and
returns the flat positions still equal to 1.  `mask[head] = 0` is only
defined for `head < n_heads` (tensor row indexing), hence the guard: out of
range the call raises and no pair is returned.
-/

/-- The fallback `find_pruneable_heads_and_indices` defined in
`fl_utils/compat.py` for `transformers >= 4.40`. -/
def find_pruneable_heads_and_indices (heads : List Nat) (n_heads head_dim : Nat)
    (already_pruned_heads : Finset Nat) : Option (Finset Nat × List Nat) :=
  let heads_to_prune := heads.toFinset \ already_pruned_heads
  if ∀ h ∈ heads_to_prune, h < n_heads then
    some (heads_to_prune,
      (List.range (n_heads * head_dim)).filter
        (fun i => decide (i / head_dim ∉ heads_to_prune)))
  else
    none

/-- A candidate `transformers.pytorch_utils` implementation: present when
importing succeeds, absent when it raises `ImportError`. -/
abbrev PruneImpl :=
  List Nat → Nat → Nat → Finset Nat → Option (Finset Nat × List Nat)

/-- Function `get_find_pruneable_heads_and_indices` (`fl_utils/compat.py`): return the
library implementation when importable, else the local fallback. -/
def get_find_pruneable_heads_and_indices (transformers_impl : Option PruneImpl) :
    PruneImpl :=
  match transformers_impl with
  | some f => f
  | none => find_pruneable_heads_and_indices

/-!
## `fl_nodes/model_loader.py`

The node's collaborators (`load_model`, `get_variant_info`,
`get_recommended_memory_mode`, `get_available_vram_gb` from the bundled
`model_manager`, and ComfyUI's `ProgressBar`) are abstract.  The node's
observable behaviour is its console log (a list of printed strings), the
trace of collaborator calls, and the returned tuple or re-raised exception.
-/

/-- A Python value stored in the model-info dict. -/
inductive PyVal
  | bool (b : Bool)
  | str (s : String)
  | nat (n : Nat)
  deriving Repr, DecidableEq

/-- The model-info dict: insertion-ordered key/value pairs, unique keys. -/
abbrev ModelInfo := List (String × PyVal)

/-- Python `d[k] = v`: update in place when the key is present, else append. -/
def dictSet (d : ModelInfo) (k : String) (v : PyVal) : ModelInfo :=
  if d.any (fun kv => kv.1 == k) then
    d.map (fun kv => if kv.1 == k then (k, v) else kv)
  else
    d ++ [(k, v)]

/-- Python `d.get(k)`: the value at the first matching key, if any. -/
def dictGet (d : ModelInfo) (k : String) : Option PyVal :=
  (d.find? (fun kv => kv.1 == k)).map Prod.snd

/-- An exception raised by the collaborator `load_model`. -/
inductive Exc
  | fileNotFound (msg : String)
  | other (msg : String)
  deriving Repr, DecidableEq

/-- ComfyUI's `ProgressBar` state. -/
structure PBar where
  total : Nat
  current : Nat
  deriving Repr, DecidableEq

/-- Constructor `ProgressBar(total)`. -/
def ProgressBar (total : Nat) : PBar :=
  { total := total, current := 0 }

/-- Method `ProgressBar.update_absolute(value)`. -/
def PBar.update_absolute (pbar : PBar) (value : Nat) : PBar :=
  { pbar with current := value }

/-- The `progress_callback` closure the node passes to `load_model`:
forwards `current` to `update_absolute`, ignores `total`. -/
def progress_callback (current total : Nat) (pbar : PBar) : PBar :=
  pbar.update_absolute current

/-- The keyword arguments the node passes to the collaborator `load_model`. -/
structure LoadArgs where
  variant : String
  low_mem : Bool
  use_flash_attn : Bool
  force_reload : Bool
  callback : Nat → Nat → PBar → PBar

/-- The fields of a variant-info dict the node reads for logging. -/
structure VariantInfo where
  description : String
  max_duration : Nat
  languages : List String
  vram_low : String
  vram_normal : String

/-- The external collaborators, as pure behaviours. -/
structure Collab where
  get_recommended_memory_mode : String → String
  get_available_vram_gb : String
  get_variant_info : String → VariantInfo
  load_model : LoadArgs → Except Exc ModelInfo

/-- One observable call the node makes, in order. -/
inductive CallEvent
  | recommendCall (variant : String)
  | vramCall
  | variantInfoCall (variant : String)
  | pbarCreate (total : Nat)
  | loadModelCall (args : LoadArgs)

/-- Everything observable about one node invocation. -/
structure NodeResult where
  logs : List String
  calls : List CallEvent
  output : Except Exc (List ModelInfo)

namespace FL_SongGen_ModelLoader

def RETURN_TYPES : List String := ["SONGGEN_MODEL"]

def RETURN_NAMES : List String := ["model"]

def FUNCTION : String := "load_model"

def CATEGORY : String := "FL Song Gen"

def MEMORY_MODES : List String := ["auto", "normal", "low", "ultra"]

/-- Memory-mode resolution: `"auto"` consults
`get_recommended_memory_mode`, anything else stands. -/
def resolved_mode (c : Collab) (model_variant memory_mode : String) : String :=
  if memory_mode == "auto" then c.get_recommended_memory_mode model_variant
  else memory_mode

/-- Flag `low_mem = resolved_mode in ("low", "ultra_low_mem", "low_mem")`. -/
def low_mem_flag (c : Collab) (model_variant memory_mode : String) : Bool :=
  ["low", "ultra_low_mem", "low_mem"].contains (resolved_mode c model_variant memory_mode)

/-- Flag `ultra_low_mem = resolved_mode in ("ultra", "ultra_low_mem")`. -/
def ultra_low_mem_flag (c : Collab) (model_variant memory_mode : String) : Bool :=
  ["ultra", "ultra_low_mem"].contains (resolved_mode c model_variant memory_mode)

/-- The arguments the node passes to the collaborator `load_model`. -/
def call_args (c : Collab) (model_variant memory_mode : String)
    (force_reload : Bool) : LoadArgs :=
  { variant := model_variant
    low_mem := low_mem_flag c model_variant memory_mode
      || ultra_low_mem_flag c model_variant memory_mode
    use_flash_attn := false
    force_reload := force_reload
    callback := progress_callback }

/-- Python `'='*60`. -/
def eq60 : String := String.mk (List.replicate 60 '=')

/-- Method `FL_SongGen_ModelLoader.load_model`: the node's single method. -/
def load_model (c : Collab) (model_variant : String)
    (memory_mode : String) (force_reload : Bool) : NodeResult :=
  let rm := resolved_mode c model_variant memory_mode
  let autoLogs : List String :=
    if memory_mode == "auto" then
      ["[FL SongGen] Auto-detected memory mode: " ++ rm ++
        " (available VRAM: " ++ c.get_available_vram_gb ++ "GB)"]
    else []
  let autoCalls : List CallEvent :=
    if memory_mode == "auto" then
      [CallEvent.recommendCall model_variant, CallEvent.vramCall]
    else []
  let low_mem := low_mem_flag c model_variant memory_mode
  let ultra_low_mem := ultra_low_mem_flag c model_variant memory_mode
  let vi := c.get_variant_info model_variant
  let headerLogs : List String :=
    ["\n" ++ eq60,
     "[FL SongGen] Loading Model",
     eq60,
     "Variant: " ++ model_variant,
     "Description: " ++ vi.description,
     "Max Duration: " ++ toString vi.max_duration ++ "s (" ++
       toString (vi.max_duration / 60) ++ "m " ++
       toString (vi.max_duration % 60) ++ "s)",
     "Languages: " ++ String.intercalate ", " vi.languages,
     "Memory Mode: " ++ rm,
     (if ultra_low_mem then "VRAM Required: ~6GB (ultra low memory mode)"
      else if low_mem then "VRAM Required: " ++ vi.vram_low ++ "GB"
      else "VRAM Required: " ++ vi.vram_normal ++ "GB"),
     eq60 ++ "\n"]
  let args := call_args c model_variant memory_mode force_reload
  let baseCalls := autoCalls ++
    [CallEvent.variantInfoCall model_variant,
     CallEvent.pbarCreate 4,
     CallEvent.loadModelCall args]
  match c.load_model args with
  | Except.ok model_info =>
      let model_info2 := dictSet model_info "ultra_low_mem" (PyVal.bool ultra_low_mem)
      { logs := autoLogs ++ headerLogs ++ ["[FL SongGen] Model loaded successfully!"]
        calls := baseCalls
        output := Except.ok [model_info2] }
  | Except.error (Exc.fileNotFound msg) =>
      { logs := autoLogs ++ headerLogs ++
          ["\n" ++ eq60,
           "[FL SongGen] ERROR: Model files not found!",
           eq60,
           "Please download the model from HuggingFace:",
           "https://huggingface.co/aslp-lab/SongGeneration",
           "\nExpected location: ComfyUI/models/songgen/" ++ model_variant ++ "/",
           "Required files: config.yaml, model.pt",
           eq60 ++ "\n"]
        calls := baseCalls
        output := Except.error (Exc.fileNotFound msg) }
  | Except.error (Exc.other msg) =>
      { logs := autoLogs ++ headerLogs ++
          ["[FL SongGen] ERROR loading model: " ++ msg]
        calls := baseCalls
        output := Except.error (Exc.other msg) }

end FL_SongGen_ModelLoader

/-!
## Theorems
-/

/-- Recognises the `get_recommended_memory_mode` call in a call trace. -/
def is_recommend_call : CallEvent → Bool
  | CallEvent.recommendCall _ => true
  | _ => false

/-- A concrete collaborator used to witness the theorems: `load_model`
always raises `FileNotFoundError("missing")`. -/
def collabFNF : Collab :=
  { get_recommended_memory_mode := fun _ => "low"
    get_available_vram_gb := "8.0"
    get_variant_info := fun _ =>
      { description := "d", max_duration := 150, languages := ["english"],
        vram_low := "10", vram_normal := "12" }
    load_model := fun _ => Except.error (Exc.fileNotFound "missing") }

/-- A concrete collaborator whose `load_model` succeeds with a small dict. -/
def collabOK : Collab :=
  { get_recommended_memory_mode := fun _ => "low"
    get_available_vram_gb := "8.0"
    get_variant_info := fun _ =>
      { description := "d", max_duration := 150, languages := ["english"],
        vram_low := "10", vram_normal := "12" }
    load_model := fun _ => Except.ok [("device", PyVal.str "cuda")] }

/-- C3: with `memory_mode = "auto"` the resolved mode is what
`get_recommended_memory_mode(model_variant)` returns; with any other
`memory_mode` the resolved mode is `memory_mode` itself and
`get_recommended_memory_mode` is never called. -/
theorem C3_memory_mode_resolution (c : Collab) (v m : String) (f : Bool) :
    (m = "auto" →
      FL_SongGen_ModelLoader.resolved_mode c v m = c.get_recommended_memory_mode v) ∧
    (m ≠ "auto" →
      FL_SongGen_ModelLoader.resolved_mode c v m = m ∧
        (FL_SongGen_ModelLoader.load_model c v m f).calls.countP is_recommend_call = 0) := by
  constructor
  · intro hm
    simp [FL_SongGen_ModelLoader.resolved_mode, hm]
  · intro hm
    have hb : (m == "auto") = false := by simpa using hm
    constructor
    · simp [FL_SongGen_ModelLoader.resolved_mode, hb]
    · cases hres : c.load_model (FL_SongGen_ModelLoader.call_args c v m f) with
      | ok mi =>
        simp [FL_SongGen_ModelLoader.load_model, hres, hb, hm,
          List.countP_cons, is_recommend_call]
      | error e =>
        cases e with
        | fileNotFound msg =>
          simp [FL_SongGen_ModelLoader.load_model, hres, hb, hm,
            List.countP_cons, is_recommend_call]
        | other msg =>
          simp [FL_SongGen_ModelLoader.load_model, hres, hb, hm,
            List.countP_cons, is_recommend_call]

/-- Witness for C3 at `memory_mode = "normal"`. -/
theorem C3_memory_mode_resolution_witness :
    FL_SongGen_ModelLoader.resolved_mode collabFNF "songgeneration_base" "normal" = "normal" ∧
      (FL_SongGen_ModelLoader.load_model collabFNF "songgeneration_base" "normal"
          false).calls.countP is_recommend_call = 0 :=
  (C3_memory_mode_resolution collabFNF "songgeneration_base" "normal" false).2
    (by decide)

/-- C7: every invocation reaching the loading step creates a `ProgressBar`
with total `4`, and the callback handed to the collaborator `load_model`
forwards `current` unchanged to `update_absolute` and ignores `total`. -/
theorem C7_progress_bar_plumbing (c : Collab) (v m : String) (f : Bool) :
    CallEvent.pbarCreate 4 ∈ (FL_SongGen_ModelLoader.load_model c v m f).calls ∧
    (FL_SongGen_ModelLoader.call_args c v m f).callback = progress_callback ∧
    (∀ cur t pb, progress_callback cur t pb = pb.update_absolute cur) ∧
    (∀ cur t t' pb, progress_callback cur t pb = progress_callback cur t' pb) ∧
    ProgressBar 4 = { total := 4, current := 0 } := by
  refine ⟨?_, rfl, fun _ _ _ => rfl, fun _ _ _ _ => rfl, rfl⟩
  cases hres : c.load_model (FL_SongGen_ModelLoader.call_args c v m f) with
  | ok mi => simp [FL_SongGen_ModelLoader.load_model, hres]
  | error e =>
    cases e with
    | fileNotFound msg => simp [FL_SongGen_ModelLoader.load_model, hres]
    | other msg => simp [FL_SongGen_ModelLoader.load_model, hres]

/-- C8: the node is deterministic — equal arguments and equal collaborator
behaviour give equal results. -/
theorem C8_deterministic (c c' : Collab) (v v' m m' : String) (f f' : Bool)
    (hc : c = c') (hv : v = v') (hm : m = m') (hf : f = f') :
    FL_SongGen_ModelLoader.load_model c v m f =
      FL_SongGen_ModelLoader.load_model c' v' m' f' := by
  subst hc hv hm hf
  rfl

/-- Witness for C8 at concrete equal inputs. -/
theorem C8_deterministic_witness :
    FL_SongGen_ModelLoader.load_model collabFNF "songgeneration_base" "auto" false =
      FL_SongGen_ModelLoader.load_model collabFNF "songgeneration_base" "auto" false :=
  C8_deterministic collabFNF collabFNF "songgeneration_base" "songgeneration_base"
    "auto" "auto" false false rfl rfl rfl rfl

/-- The two `mkdir` calls on the way to a variant directory do not affect a
file path inside it. -/
theorem variant_file_fs (root : FPath) (v : String) (fs : FS) (f : String) :
    mkdirParents (mkdirParents fs (root ++ ["models", "songgen"]))
        ((root ++ ["models", "songgen"]) ++ [v])
        (((root ++ ["models", "songgen"]) ++ [v]) ++ [f])
      = fs (root ++ ["models", "songgen", v, f]) := by
  rw [mkdirParents_longer _ _ _ (by simp), mkdirParents_longer _ _ _ (by simp)]
  congr 1
  simp

/-- The `mkdir` of the models dir does not affect a path inside `ckpt/`. -/
theorem ckpt_file_fs (root : FPath) (fs : FS) (item : String) :
    mkdirParents fs (root ++ ["models", "songgen"])
        (((root ++ ["models", "songgen"]) ++ ["ckpt"]) ++ [item])
      = fs (root ++ ["models", "songgen", "ckpt", item]) := by
  rw [mkdirParents_longer _ _ _ (by simp)]
  congr 1
  simp

/-- C4: each `check_*` helper reports exactly the absent required items, and
its `exists` field holds exactly when nothing is missing. -/
theorem C4_check_functions_exact (root pkg : FPath) (fs : FS) (v : String) :
    ((check_model_files root v fs).1.missing =
        ["config.yaml", "model.pt"].filter
          (fun f => !(fs (root ++ ["models", "songgen", v, f]))) ∧
      ((check_model_files root v fs).1.exists_ = true ↔
        (check_model_files root v fs).1.missing = [])) ∧
    ((check_checkpoint_files root fs).1.missing =
        ["model_1rvq", "model_septoken", "vae"].filter
          (fun item => !(fs (root ++ ["models", "songgen", "ckpt", item]))) ∧
      ((check_checkpoint_files root fs).1.exists_ = true ↔
        (check_checkpoint_files root fs).1.missing = [])) ∧
    ((check_bundled_files pkg fs).missing =
        (bundled_required_dirs.filter (fun d => !(fs (pkg ++ d)))).map relString ∧
      ((check_bundled_files pkg fs).exists_ = true ↔
        (check_bundled_files pkg fs).missing = [])) := by
  refine ⟨⟨?_, ?_⟩, ⟨?_, ?_⟩, rfl, ?_⟩
  · simp only [check_model_files, get_model_variant_dir, get_songgen_models_dir]
    simp only [variant_file_fs]
  · simp [check_model_files, List.isEmpty_iff]
  · simp only [check_checkpoint_files, get_checkpoints_dir, get_songgen_models_dir]
    simp only [ckpt_file_fs]
  · simp [check_checkpoint_files, List.isEmpty_iff]
  · simp [check_bundled_files, List.isEmpty_iff]

theorem find_map_set (d : ModelInfo) (k : String) (v : PyVal)
    (h : d.any (fun kv => kv.1 == k) = true) :
    (d.map (fun kv => if kv.1 == k then (k, v) else kv)).find? (fun kv => kv.1 == k)
      = some (k, v) := by
  induction d with
  | nil => simp at h
  | cons kv d ih =>
    rw [List.map_cons]
    by_cases hk : kv.1 = k
    · rw [if_pos (by simp [hk] : ((kv.1 == k) = true))]
      exact List.find?_cons_of_pos _ (by simp)
    · rw [if_neg (by simp [hk] : ¬ ((kv.1 == k) = true))]
      rw [List.find?_cons_of_neg _ (by simp [hk])]
      have h' : (d.any fun kv => kv.1 == k) = true := by
        rw [List.any_cons, Bool.or_eq_true] at h
        rcases h with h | h
        · exact absurd (eq_of_beq h) hk
        · exact h
      exact ih h'

theorem find_map_set_ne (d : ModelInfo) (k k' : String) (v : PyVal) (hne : k' ≠ k) :
    (d.map (fun kv => if kv.1 == k then (k, v) else kv)).find? (fun kv => kv.1 == k')
      = d.find? (fun kv => kv.1 == k') := by
  induction d with
  | nil => simp
  | cons kv d ih =>
    rw [List.map_cons]
    by_cases hk : kv.1 = k
    · rw [if_pos (by simp [hk] : ((kv.1 == k) = true))]
      refine ((List.find?_cons_of_neg _ ?_).trans ih).trans
        (List.find?_cons_of_neg _ ?_).symm
      · simp [Ne.symm hne]
      · simp [hk, Ne.symm hne]
    · rw [if_neg (by simp [hk] : ¬ ((kv.1 == k) = true))]
      by_cases hkv : kv.1 = k'
      · exact (List.find?_cons_of_pos _ (by simp [hkv])).trans
          (List.find?_cons_of_pos _ (by simp [hkv])).symm
      · refine ((List.find?_cons_of_neg _ ?_).trans ih).trans
          (List.find?_cons_of_neg _ ?_).symm
        · simp [hkv]
        · simp [hkv]

/-- Assigning key `k` makes `d[k]` read back the assigned value. -/
theorem dictGet_dictSet_self (d : ModelInfo) (k : String) (v : PyVal) :
    dictGet (dictSet d k v) k = some v := by
  unfold dictGet dictSet
  by_cases h : (d.any fun kv => kv.1 == k) = true
  · rw [if_pos h, find_map_set d k v h]
    rfl
  · rw [if_neg h, List.find?_append]
    have hnone : d.find? (fun kv => kv.1 == k) = none := by
      rw [List.find?_eq_none]
      intro x hx hpx
      exact h (List.any_eq_true.mpr ⟨x, hx, hpx⟩)
    simp [hnone, List.find?_cons, -List.find?_map]

/-- Assigning key `k` leaves every other key's value unchanged. -/
theorem dictGet_dictSet_ne (d : ModelInfo) (k k' : String) (v : PyVal) (hne : k' ≠ k) :
    dictGet (dictSet d k v) k' = dictGet d k' := by
  unfold dictGet dictSet
  by_cases h : (d.any fun kv => kv.1 == k) = true
  · rw [if_pos h, find_map_set_ne d k k' v hne]
  · rw [if_neg h, List.find?_append]
    cases hfind : d.find? (fun kv => kv.1 == k') with
    | some x => simp [hfind]
    | none => simp [hfind, List.find?_cons, Ne.symm hne, -List.find?_map]

/-- Assigning key `k` either keeps the key list unchanged (key present) or
appends exactly `k` (key absent). -/
theorem dictSet_keys (d : ModelInfo) (k : String) (v : PyVal) :
    (dictSet d k v).map Prod.fst =
      if d.any (fun kv => kv.1 == k) then d.map Prod.fst
      else d.map Prod.fst ++ [k] := by
  unfold dictSet
  by_cases h : (d.any fun kv => kv.1 == k) = true
  · rw [if_pos h, if_pos h, List.map_map]
    apply List.map_congr_left
    intro kv _
    by_cases hk : kv.1 = k
    · simp [hk]
    · simp [hk]
  · rw [if_neg h, if_neg h]
    simp

/-- C1: when the collaborator `load_model` raises, the node re-raises the
same exception; a `FileNotFoundError` is logged with the expected location
and required files, any other exception is logged with its message. -/
theorem C1_exception_passthrough (c : Collab) (v m : String) (f : Bool) (e : Exc)
    (hres : c.load_model (FL_SongGen_ModelLoader.call_args c v m f) = Except.error e) :
    (FL_SongGen_ModelLoader.load_model c v m f).output = Except.error e ∧
    (∀ msg, e = Exc.fileNotFound msg →
      ("\nExpected location: ComfyUI/models/songgen/" ++ v ++ "/") ∈
          (FL_SongGen_ModelLoader.load_model c v m f).logs ∧
        "Required files: config.yaml, model.pt" ∈
          (FL_SongGen_ModelLoader.load_model c v m f).logs) ∧
    (∀ msg, e = Exc.other msg →
      ("[FL SongGen] ERROR loading model: " ++ msg) ∈
        (FL_SongGen_ModelLoader.load_model c v m f).logs) := by
  cases e with
  | fileNotFound msg =>
    refine ⟨?_, ?_, ?_⟩
    · simp [FL_SongGen_ModelLoader.load_model, hres]
    · intro msg' hmsg
      constructor <;> simp [FL_SongGen_ModelLoader.load_model, hres]
    · intro msg' hmsg
      simp at hmsg
  | other msg =>
    refine ⟨?_, ?_, ?_⟩
    · simp [FL_SongGen_ModelLoader.load_model, hres]
    · intro msg' hmsg
      simp at hmsg
    · intro msg' hmsg
      cases hmsg
      simp [FL_SongGen_ModelLoader.load_model, hres]

/-- Witness for C1: a collaborator raising `FileNotFoundError("missing")`. -/
theorem C1_exception_passthrough_witness :
    (FL_SongGen_ModelLoader.load_model collabFNF "songgeneration_base" "normal"
        false).output = Except.error (Exc.fileNotFound "missing") ∧
      ("\nExpected location: ComfyUI/models/songgen/songgeneration_base/") ∈
        (FL_SongGen_ModelLoader.load_model collabFNF "songgeneration_base" "normal"
          false).logs := by
  have h := C1_exception_passthrough collabFNF "songgeneration_base" "normal" false
    (Exc.fileNotFound "missing") rfl
  exact ⟨h.1, (h.2.1 "missing" rfl).1⟩

/-- C2: `low_mem` is passed as membership of the resolved mode in
`{low, low_mem, ultra, ultra_low_mem}` (so in particular it is true for
`ultra`), and `model_info["ultra_low_mem"]` is set exactly when the
resolved mode is `ultra` or `ultra_low_mem`. -/
theorem C2_memory_flags (c : Collab) (v m : String) (f : Bool) :
    ((FL_SongGen_ModelLoader.call_args c v m f).low_mem =
      ["low", "low_mem", "ultra", "ultra_low_mem"].contains
        (FL_SongGen_ModelLoader.resolved_mode c v m)) ∧
    (FL_SongGen_ModelLoader.resolved_mode c v m = "ultra" →
      (FL_SongGen_ModelLoader.call_args c v m f).low_mem = true) ∧
    (FL_SongGen_ModelLoader.ultra_low_mem_flag c v m =
      ["ultra", "ultra_low_mem"].contains (FL_SongGen_ModelLoader.resolved_mode c v m)) ∧
    (∀ mi, c.load_model (FL_SongGen_ModelLoader.call_args c v m f) = Except.ok mi →
      (FL_SongGen_ModelLoader.load_model c v m f).output =
        Except.ok [dictSet mi "ultra_low_mem"
          (PyVal.bool (FL_SongGen_ModelLoader.ultra_low_mem_flag c v m))] ∧
      dictGet (dictSet mi "ultra_low_mem"
          (PyVal.bool (FL_SongGen_ModelLoader.ultra_low_mem_flag c v m))) "ultra_low_mem"
        = some (PyVal.bool (["ultra", "ultra_low_mem"].contains
            (FL_SongGen_ModelLoader.resolved_mode c v m)))) := by
  have hmain : (FL_SongGen_ModelLoader.call_args c v m f).low_mem =
      ["low", "low_mem", "ultra", "ultra_low_mem"].contains
        (FL_SongGen_ModelLoader.resolved_mode c v m) := by
    show (FL_SongGen_ModelLoader.low_mem_flag c v m
        || FL_SongGen_ModelLoader.ultra_low_mem_flag c v m) = _
    unfold FL_SongGen_ModelLoader.low_mem_flag FL_SongGen_ModelLoader.ultra_low_mem_flag
    generalize FL_SongGen_ModelLoader.resolved_mode c v m = r
    simp only [List.contains_cons, List.contains_nil, Bool.or_false]
    cases h1 : r == "low" <;> cases h2 : r == "ultra_low_mem" <;>
      cases h3 : r == "low_mem" <;> cases h4 : r == "ultra" <;> simp [h1, h2, h3, h4]
  refine ⟨hmain, ?_, rfl, ?_⟩
  · intro hr
    rw [hmain, hr]
    decide
  · intro mi hres
    refine ⟨by simp [FL_SongGen_ModelLoader.load_model, hres], ?_⟩
    exact dictGet_dictSet_self mi "ultra_low_mem"
      (PyVal.bool (FL_SongGen_ModelLoader.ultra_low_mem_flag c v m))

/-- Witness for C2 at `memory_mode = "ultra"` with a successful load. -/
theorem C2_memory_flags_witness :
    (FL_SongGen_ModelLoader.call_args collabOK "songgeneration_base" "ultra"
        false).low_mem = true ∧
      (FL_SongGen_ModelLoader.load_model collabOK "songgeneration_base" "ultra"
          false).output =
        Except.ok [[("device", PyVal.str "cuda"), ("ultra_low_mem", PyVal.bool true)]] := by
  have h := C2_memory_flags collabOK "songgeneration_base" "ultra" false
  exact ⟨h.2.1 rfl, (h.2.2.2 [("device", PyVal.str "cuda")] rfl).1⟩

/-- C5: a successful invocation returns a one-element tuple holding the
collaborator's dict with exactly the key `ultra_low_mem` added (other keys
and values untouched), and the node's output type is `SONGGEN_MODEL`. -/
theorem C5_return_shape (c : Collab) (v m : String) (f : Bool) (mi : ModelInfo)
    (hres : c.load_model (FL_SongGen_ModelLoader.call_args c v m f) = Except.ok mi) :
    FL_SongGen_ModelLoader.RETURN_TYPES = ["SONGGEN_MODEL"] ∧
    (FL_SongGen_ModelLoader.load_model c v m f).output =
      Except.ok [dictSet mi "ultra_low_mem"
        (PyVal.bool (FL_SongGen_ModelLoader.ultra_low_mem_flag c v m))] ∧
    (∀ k, k ≠ "ultra_low_mem" →
      dictGet (dictSet mi "ultra_low_mem"
        (PyVal.bool (FL_SongGen_ModelLoader.ultra_low_mem_flag c v m))) k = dictGet mi k) ∧
    dictGet (dictSet mi "ultra_low_mem"
        (PyVal.bool (FL_SongGen_ModelLoader.ultra_low_mem_flag c v m))) "ultra_low_mem"
      = some (PyVal.bool (FL_SongGen_ModelLoader.ultra_low_mem_flag c v m)) ∧
    ((dictSet mi "ultra_low_mem"
        (PyVal.bool (FL_SongGen_ModelLoader.ultra_low_mem_flag c v m))).map Prod.fst =
      if mi.any (fun kv => kv.1 == "ultra_low_mem") then mi.map Prod.fst
      else mi.map Prod.fst ++ ["ultra_low_mem"]) := by
  refine ⟨rfl, by simp [FL_SongGen_ModelLoader.load_model, hres], ?_, ?_, ?_⟩
  · intro k hk
    exact dictGet_dictSet_ne mi "ultra_low_mem" k _ hk
  · exact dictGet_dictSet_self mi "ultra_low_mem" _
  · exact dictSet_keys mi "ultra_low_mem" _

/-- Witness for C5 with a successful load in mode `normal`. -/
theorem C5_return_shape_witness :
    FL_SongGen_ModelLoader.RETURN_TYPES = ["SONGGEN_MODEL"] ∧
      (FL_SongGen_ModelLoader.load_model collabOK "songgeneration_base" "normal"
          false).output =
        Except.ok [[("device", PyVal.str "cuda"), ("ultra_low_mem", PyVal.bool false)]] := by
  have h := C5_return_shape collabOK "songgeneration_base" "normal" false
    [("device", PyVal.str "cuda")] rfl
  exact ⟨h.1, h.2.1⟩

/-- C10: `get_songgen_models_dir` and `get_model_variant_dir` create the
returned directory, so it exists afterwards; and `check_model_files` only
ever reports `config.yaml` or `model.pt` as missing, never the directory. -/
theorem C10_directories_created (root : FPath) (fs : FS) (v : String) :
    (get_songgen_models_dir root fs).2 (get_songgen_models_dir root fs).1 = true ∧
    (get_model_variant_dir root v fs).2 (get_model_variant_dir root v fs).1 = true ∧
    (∀ x ∈ (check_model_files root v fs).1.missing,
      x = "config.yaml" ∨ x = "model.pt") := by
  refine ⟨?_, ?_, ?_⟩
  · simp [get_songgen_models_dir, mkdirParents, pathPre_refl]
  · simp [get_model_variant_dir, get_songgen_models_dir, mkdirParents, pathPre_refl]
  · intro x hx
    simp only [check_model_files, List.mem_filter, List.mem_cons,
      List.not_mem_nil, or_false] at hx
    tauto

theorem sys_path_step_pos (fs : FS) (s : List FPath) (p : FPath)
    (hc : (!(s.contains p) && fs p) = true) : sys_path_step fs s p = p :: s := by
  unfold sys_path_step
  exact if_pos hc

theorem sys_path_step_neg (fs : FS) (s : List FPath) (p : FPath)
    (hc : ¬ ((!(s.contains p) && fs p) = true)) : sys_path_step fs s p = s := by
  unfold sys_path_step
  exact if_neg hc

/-- One loop iteration never removes a `sys.path` member. -/
theorem sys_path_step_mem (fs : FS) (s : List FPath) (p q : FPath) (h : q ∈ s) :
    q ∈ sys_path_step fs s p := by
  by_cases hc : (!(s.contains p) && fs p) = true
  · rw [sys_path_step_pos fs s p hc]
    exact List.mem_cons_of_mem _ h
  · rw [sys_path_step_neg fs s p hc]
    exact h

/-- The whole loop never removes a `sys.path` member. -/
theorem foldl_step_mem (fs : FS) (ps : List FPath) (s : List FPath) (q : FPath)
    (h : q ∈ s) : q ∈ ps.foldl (sys_path_step fs) s := by
  induction ps generalizing s with
  | nil => exact h
  | cons p ps ih => exact ih _ (sys_path_step_mem fs s p q h)

/-- After the loop, every existing considered path is a `sys.path` member. -/
theorem foldl_step_adds (fs : FS) (ps : List FPath) (s : List FPath) (p : FPath)
    (hp : p ∈ ps) (hfs : fs p = true) : p ∈ ps.foldl (sys_path_step fs) s := by
  induction ps generalizing s with
  | nil => simp at hp
  | cons a ps ih =>
    rcases List.mem_cons.mp hp with rfl | hp'
    · rw [List.foldl_cons]
      apply foldl_step_mem
      by_cases hc : (!(s.contains p) && fs p) = true
      · rw [sys_path_step_pos fs s p hc]
        exact List.mem_cons_self _ _
      · rw [sys_path_step_neg fs s p hc]
        cases hcont : s.contains p with
        | true => exact List.elem_iff.mp hcont
        | false => exact absurd (by rw [hcont, hfs]; rfl) hc
    · rw [List.foldl_cons]
      exact ih _ hp'

/-- If every considered existing path is already a member, the loop is the
identity. -/
theorem foldl_step_fixed (fs : FS) (ps : List FPath) (s : List FPath)
    (h : ∀ p ∈ ps, fs p = true → p ∈ s) :
    ps.foldl (sys_path_step fs) s = s := by
  induction ps with
  | nil => rfl
  | cons a ps ih =>
    have hstep : sys_path_step fs s a = s := by
      by_cases hc : (!(s.contains a) && fs a) = true
      · rw [Bool.and_eq_true] at hc
        have h1 : s.contains a = false := by simpa using hc.1
        have hmem := h a (List.mem_cons_self a ps) hc.2
        have h2 : s.contains a = true := List.elem_iff.mpr hmem
        rw [h1] at h2
        exact absurd h2 (by simp)
      · exact sys_path_step_neg fs s a hc
    rw [List.foldl_cons, hstep]
    exact ih (fun p hp hfsp => h p (List.mem_cons_of_mem _ hp) hfsp)

/-- The loop only prepends: the result is some block of new entries, each
existing on disk and previously absent, in front of the untouched old list. -/
theorem foldl_step_prepends (fs : FS) (ps : List FPath) (s : List FPath) :
    ∃ l, ps.foldl (sys_path_step fs) s = l ++ s ∧
      ∀ p ∈ l, fs p = true ∧ p ∉ s := by
  induction ps generalizing s with
  | nil => exact ⟨[], rfl, by simp⟩
  | cons a ps ih =>
    rw [List.foldl_cons]
    by_cases hc : (!(s.contains a) && fs a) = true
    · rw [sys_path_step_pos fs s a hc]
      obtain ⟨l1, heq, hprop⟩ := ih (a :: s)
      refine ⟨l1 ++ [a], by rw [heq]; simp, ?_⟩
      intro p hp
      rcases List.mem_append.mp hp with hp1 | hp2
      · obtain ⟨hf, hnm⟩ := hprop p hp1
        exact ⟨hf, fun hmem => hnm (List.mem_cons_of_mem _ hmem)⟩
      · rw [List.mem_singleton] at hp2
        subst hp2
        rw [Bool.and_eq_true] at hc
        have h1 : s.contains p = false := by simpa using hc.1
        refine ⟨hc.2, fun hmem => ?_⟩
        have h2 : s.contains p = true := List.elem_iff.mpr hmem
        rw [h1] at h2
        exact absurd h2 (by simp)
    · rw [sys_path_step_neg fs s a hc]
      exact ih s

/-- C9: `setup_bundled_imports` is idempotent, and only ever prepends paths
that exist on disk and were not already `sys.path` members; it removes
nothing. -/
theorem C9_setup_bundled_imports_idempotent (pkg : FPath) (fs : FS) (s : List FPath) :
    setup_bundled_imports pkg fs (setup_bundled_imports pkg fs s) =
      setup_bundled_imports pkg fs s ∧
    ∃ l, setup_bundled_imports pkg fs s = l ++ s ∧
      ∀ p ∈ l, fs p = true ∧ p ∉ s := by
  constructor
  · unfold setup_bundled_imports
    apply foldl_step_fixed
    intro p hp hfsp
    exact foldl_step_adds fs (paths_to_add pkg) s p hp hfsp
  · exact foldl_step_prepends fs (paths_to_add pkg) s

/-- Row-major counting: among the flat positions of an `n × d` grid, those
whose row avoids `S` number `(rows avoiding S) * d`. -/
theorem filter_div_length (d : Nat) (hd : 0 < d) (S : Finset Nat) (n : Nat) :
    ((List.range (n * d)).filter (fun i => decide (i / d ∉ S))).length
      = ((List.range n).filter (fun q => decide (q ∉ S))).length * d := by
  induction n with
  | zero => simp
  | succ n ih =>
    have h1 : (n + 1) * d = n * d + d := Nat.succ_mul n d
    rw [h1, List.range_add, List.filter_append, List.length_append, ih]
    rw [List.range_succ n, List.filter_append, List.length_append, Nat.add_mul]
    congr 1
    rw [List.filter_map, List.length_map]
    have hconst :
        List.filter ((fun i => decide (i / d ∉ S)) ∘ (fun j => n * d + j)) (List.range d)
          = List.filter (fun _ => decide (n ∉ S)) (List.range d) := by
      apply List.filter_congr
      intro j hj
      rw [List.mem_range] at hj
      have hdiv : (n * d + j) / d = n := by
        rw [Nat.mul_comm, Nat.mul_add_div hd, Nat.div_eq_of_lt hj, Nat.add_zero]
      simp only [Function.comp_apply, hdiv]
    rw [hconst]
    by_cases hn : n ∈ S
    · simp [hn]
    · simp [hn]

/-- In `range n`, the positions avoiding a set `S ⊆ [0, n)` number
`n - |S|`. -/
theorem range_filter_not_mem_length (n : Nat) (S : Finset Nat)
    (hS : ∀ h ∈ S, h < n) :
    ((List.range n).filter (fun q => decide (q ∉ S))).length = n - S.card := by
  have hmem : ((List.range n).filter (fun q => decide (q ∈ S))).length = S.card := by
    have hnodup : ((List.range n).filter (fun q => decide (q ∈ S))).Nodup :=
      (List.nodup_range n).sublist (List.filter_sublist _)
    have htf : ((List.range n).filter (fun q => decide (q ∈ S))).toFinset = S := by
      ext x
      simp only [List.mem_toFinset, List.mem_filter, List.mem_range, decide_eq_true_eq]
      exact ⟨fun h => h.2, fun h => ⟨hS x h, h⟩⟩
    have hcard := List.toFinset_card_of_nodup hnodup
    rw [htf] at hcard
    exact hcard.symm
  have hsplit := @List.length_eq_length_filter_add Nat (List.range n)
    (fun q => decide (q ∈ S))
  rw [List.length_range] at hsplit
  have hpred : (List.range n).filter (fun a => !((fun q => decide (q ∈ S)) a))
      = (List.range n).filter (fun q => decide (q ∉ S)) := by
    apply List.filter_congr
    intro x _
    simp [decide_not]
  rw [hpred] at hsplit
  omega

/-- C6: `get_find_pruneable_heads_and_indices` returns the library
implementation when importable and the fallback otherwise; the fallback
returns the still-to-prune set `set(heads) - already_pruned_heads` together
with the increasing list of exactly the flat mask positions of heads not in
that set, whose length is `(n_heads - |set(heads) - already_pruned|) * head_dim`. -/
theorem C6_find_pruneable (impl : PruneImpl) (heads : List Nat)
    (n_heads head_dim : Nat) (pruned : Finset Nat)
    (hin : ∀ h ∈ heads.toFinset \ pruned, h < n_heads) :
    get_find_pruneable_heads_and_indices (some impl) = impl ∧
    get_find_pruneable_heads_and_indices none = find_pruneable_heads_and_indices ∧
    find_pruneable_heads_and_indices heads n_heads head_dim pruned
      = some (heads.toFinset \ pruned,
          (List.range (n_heads * head_dim)).filter
            (fun i => decide (i / head_dim ∉ heads.toFinset \ pruned))) ∧
    (∀ i, i ∈ (List.range (n_heads * head_dim)).filter
          (fun i => decide (i / head_dim ∉ heads.toFinset \ pruned)) ↔
        (i < n_heads * head_dim ∧ i / head_dim ∉ heads.toFinset \ pruned)) ∧
    ((List.range (n_heads * head_dim)).filter
        (fun i => decide (i / head_dim ∉ heads.toFinset \ pruned))).Pairwise (· < ·) ∧
    ((List.range (n_heads * head_dim)).filter
        (fun i => decide (i / head_dim ∉ heads.toFinset \ pruned))).length
      = (n_heads - (heads.toFinset \ pruned).card) * head_dim := by
  refine ⟨rfl, rfl, ?_, ?_, ?_, ?_⟩
  · unfold find_pruneable_heads_and_indices
    rw [if_pos hin]
  · intro i
    simp only [List.mem_filter, List.mem_range, decide_eq_true_eq]
  · exact (List.pairwise_lt_range (n_heads * head_dim)).sublist (List.filter_sublist _)
  · cases Nat.eq_zero_or_pos head_dim with
    | inl h0 => subst h0; simp
    | inr hd =>
      rw [filter_div_length head_dim hd _ n_heads,
        range_filter_not_mem_length n_heads _ hin]

/-- Witness for C6: `heads = [0, 2]`, `n_heads = 4`, `head_dim = 3`,
`already_pruned_heads = {2}`; the retained head is `0` and its three flat
positions are dropped from the index. -/
theorem C6_find_pruneable_witness :
    (∀ h ∈ ([0, 2] : List Nat).toFinset \ ({2} : Finset Nat), h < 4) ∧
      find_pruneable_heads_and_indices [0, 2] 4 3 {2}
        = some (([0, 2] : List Nat).toFinset \ ({2} : Finset Nat),
            (List.range (4 * 3)).filter
              (fun i => decide (i / 3 ∉ ([0, 2] : List Nat).toFinset \ ({2} : Finset Nat)))) ∧
      ((List.range (4 * 3)).filter
          (fun i => decide (i / 3 ∉ ([0, 2] : List Nat).toFinset \ ({2} : Finset Nat)))).length
        = (4 - (([0, 2] : List Nat).toFinset \ ({2} : Finset Nat)).card) * 3 := by
  have h := C6_find_pruneable find_pruneable_heads_and_indices [0, 2] 4 3 {2} (by decide)
  exact ⟨by decide, h.2.2.1, h.2.2.2.2.2⟩

end SongGen
